import Mathlib

/-!
# Verification of the folder-based task workflow engine

A shallow embedding, in Lean 4, of the workflow core implemented in
`src/orchestrator.py`, `src/watchers/base_watcher.py` and
`src/watchers/filesystem_watcher.py`, together with theorems settling the
frozen claims about that code.

Modelling conventions:
* Pure Python functions become Lean functions on the same data.
* Stateful methods become explicit state-passing functions over small
  structures mirroring the mutable attributes they touch.
* Filesystem and subprocess effects are modelled by explicit parameters:
  a directory listing is a `List` of entries, the outcome of a fallible
  I/O call is a `Bool` oracle, and the outcome of `subprocess.run` is an
  inductive `RunOutcome`.
* A Python `set` is modelled by its membership; where the program relies
  on the *iteration order* of a set (which CPython leaves unspecified for
  these hash-randomized string elements), the order is an arbitrary
  enumeration constrained only by `set_iteration_ok`.
-/

/-! ## Filesystem watcher data model (`filesystem_watcher.py`) -/

/-- Python `str.startswith(prefix)`, computed structurally over the
character list (so that concrete instances reduce in the kernel). -/
def py_startswith (s pre : String) : Bool := pre.data.isPrefixOf s.data

/-- Python `str.endswith(suffix)`. -/
def py_endswith (s suf : String) : Bool := suf.data.isSuffixOf s.data

/-- Python `str.strip()` (leading and trailing whitespace removed); the
lines compared here contain only ASCII whitespace, for which
`Char.isWhitespace` matches Python. -/
def py_strip (s : String) : String :=
  ⟨((s.data.dropWhile Char.isWhitespace).reverse.dropWhile
    Char.isWhitespace).reverse⟩

/-- A file sitting in the drop folder, as seen by `FileSystemWatcher`.
`hash` stands for the MD5 content hash `_calculate_hash` would compute
(the hash function itself is an external library call and is treated as a
given attribute of the file). -/
structure DropFile where
  name : String
  hash : String
  size : Nat
deriving DecidableEq, Repr

/-- The mutable dedup state of a `FileSystemWatcher`:
`processed_ids` is the persisted set inherited from `BaseWatcher`
(`self.processed_ids`), `processed_hashes` the in-memory content-hash set
(`self.processed_hashes`).  Both are modelled as insertion-ordered
duplicate-free lists; membership is what the code tests. -/
structure FSWatcherState where
  processed_ids : List String
  processed_hashes : List String
deriving DecidableEq, Repr

/-- Model of `FileSystemWatcher.check_for_updates` (filesystem_watcher.py:97-120):
iterates the drop folder; for every regular non-dot file whose content
hash is not yet in `processed_hashes`, appends the file to the returned
list *and adds its hash to `processed_hashes`*.  Files whose hashing
raises are skipped (not modelled: a skipped file leaves the state
unchanged, like a dot file).  `check_step` is one iteration of the
`for filepath in self.drop_folder.iterdir()` loop. -/
def check_step (acc : List DropFile × FSWatcherState) (f : DropFile) :
    List DropFile × FSWatcherState :=
  if py_startswith f.name "." then acc
  else if acc.2.processed_hashes.contains f.hash then acc
  else (acc.1 ++ [f],
        { acc.2 with processed_hashes := acc.2.processed_hashes ++ [f.hash] })

def check_for_updates (drop : List DropFile) (s : FSWatcherState) :
    List DropFile × FSWatcherState :=
  drop.foldl check_step ([], s)

/-- Model of `BaseWatcher.sanitize_filename` (base_watcher.py:181-195): each of the
characters `<>:"/\|?*` is replaced by `_`, then the result is stripped of
surrounding whitespace (`str.strip`, modelled by `py_strip`). -/
def sanitize_filename (name : String) : String :=
  py_strip ⟨name.data.map fun c =>
    if c ∈ ['<', '>', ':', '"', '/', '\\', '|', '?', '*'] then '_' else c⟩

/-- Python `s[:k]` slicing on a string. -/
def str_take (s : String) (k : Nat) : String := ⟨s.data.take k⟩

/-- The `pathlib`-style last-dot index: the index of the last
`'.'` in the name, if any. -/
def last_dot_idx (cs : List Char) : Option Nat :=
  (cs.reverse.findIdx? (· = '.')).map (fun j => cs.length - 1 - j)

/-- Model of `pathlib.Path.stem`: the file name without its final suffix; the
suffix exists only when the last dot is at an index `i` with
`0 < i < len - 1`. -/
def py_stem (n : String) : String :=
  match last_dot_idx n.data with
  | some i => if 0 < i ∧ i < n.data.length - 1 then ⟨n.data.take i⟩ else n
  | none => n

/-- Model of `pathlib.Path.suffix`, lower-cased as in `create_action_file`. -/
def py_suffix_lower (n : String) : String :=
  match last_dot_idx n.data with
  | some i =>
      if 0 < i ∧ i < n.data.length - 1 then ⟨(n.data.drop i).map Char.toLower⟩ else ""
  | none => ""

/-- The `type_mapping` dict of `create_action_file`
(filesystem_watcher.py:180-195), with the `.get(_, 'unknown')` default. -/
def file_type_of (ext : String) : String :=
  match ext with
  | ".pdf" => "document" | ".doc" => "document" | ".docx" => "document"
  | ".txt" => "document" | ".md" => "document"
  | ".xls" => "spreadsheet" | ".xlsx" => "spreadsheet" | ".csv" => "spreadsheet"
  | ".jpg" => "image" | ".jpeg" => "image" | ".png" => "image" | ".gif" => "image"
  | ".zip" => "archive" | ".rar" => "archive"
  | _ => "unknown"

/-- The action-file path chosen by `create_action_file`
(filesystem_watcher.py:240-241):
`f'FILE_{sanitize_filename(source.stem)}_{timestamp[:10]}.md'` inside
`Needs_Action` (the folder prefix is common to every action file and is
left implicit).  `date` is `timestamp[:10]`. -/
def action_file_name (source_name : String) (date : String) : String :=
  "FILE_" ++ sanitize_filename (py_stem source_name) ++ "_" ++ date ++ ".md"

/-- The markdown body written by `create_action_file`
(filesystem_watcher.py:200-237).  `size_human` is the output of
`_format_size`, whose floating-point formatting is not embedded; it is
passed through as the string the code would produce. -/
def action_file_content (f : DropFile) (dest timestamp size_human : String) : String :=
  "---\ntype: file_drop\nsource: " ++ f.name ++
  "\ndestination: " ++ dest ++
  "\nfile_type: " ++ file_type_of (py_suffix_lower f.name) ++
  "\nsize: " ++ toString f.size ++
  "\nsize_human: " ++ size_human ++
  "\nreceived: " ++ timestamp ++
  "\npriority: normal\nstatus: pending\nhash: " ++ f.hash ++
  "\n---\n\n# File Drop: " ++ f.name ++
  "\n\nA new file has been dropped for processing.\n\n## File Details\n\n" ++
  "- **Type**: " ++ file_type_of (py_suffix_lower f.name) ++
  "\n- **Size**: " ++ size_human ++
  "\n- **Received**: " ++ timestamp ++
  "\n- **Location**: `" ++ dest ++ "`" ++
  "\n\n## Suggested Actions\n\n- [ ] Review file content\n- [ ] Categorize appropriately\n" ++
  "- [ ] Take necessary action\n- [ ] Move to archive when complete\n\n## Notes\n\n" ++
  "<!-- Add notes about this file here -->\n\n---\n*Created by FileSystemWatcher*\n"

/-- Model of `FileSystemWatcher.create_action_file` (filesystem_watcher.py:160-249).
`write_ok` is the I/O oracle: `true` means every filesystem call in the
`try` block (the `stat`, the `write_text`) succeeds; `false` means some
call raised, in which case the method logs, returns `None`, and performs
no state change — in particular `processed_hashes.add` (line 244) runs
only after a successful write, and `processed_ids` is never touched. -/
def create_action_file (write_ok : Bool) (timestamp : String) (f : DropFile)
    (s : FSWatcherState) : Option String × FSWatcherState :=
  if write_ok then
    (some (action_file_name f.name (str_take timestamp 10)),
     { s with processed_hashes :=
        if s.processed_hashes.contains f.hash then s.processed_hashes
        else s.processed_hashes ++ [f.hash] })
  else (none, s)

/-- Model of `FileSystemWatcher.process_file` (filesystem_watcher.py:122-158).
`copy_ok` is the oracle for `shutil.copy2`; a raised copy aborts the
`try` block before `create_action_file` is reached. -/
def process_file (copy_ok write_ok : Bool) (timestamp : String) (f : DropFile)
    (s : FSWatcherState) : FSWatcherState :=
  if s.processed_hashes.contains f.hash then s
  else if !copy_ok then s
  else (create_action_file write_ok timestamp f s).2

/-! ## State store (`base_watcher.py`) -/

/-- Python `set.add` observed through an insertion-ordered list:
membership is unchanged if present, otherwise the element is appended. -/
def py_set_add {α : Type} [DecidableEq α] (s : List α) (x : α) : List α :=
  if x ∈ s then s else s ++ [x]

/-- The insertion-ordered member list after a sequence of `add` calls
starting from the empty set. -/
def insertion_list {α : Type} [DecidableEq α] (adds : List α) : List α :=
  adds.foldl py_set_add []

/-- Holds when `e` is a possible result of `list(s)` for a Python set with member
list `members`: some duplicate-free enumeration of exactly the members.
CPython specifies no order for it (string hashes are randomized per
process), so every such `e` is a possible behaviour. -/
def set_iteration_ok {α : Type} (members e : List α) : Prop :=
  e.Nodup ∧ ∀ x, x ∈ e ↔ x ∈ members

/-- Model of `BaseWatcher._save_state` (base_watcher.py:105-114): the persisted
list is `list(self.processed_ids)[-1000:]`, i.e. the last 1000 elements
of the set's enumeration. -/
def save_ids {α : Type} (e : List α) : List α :=
  e.drop (e.length - 1000)

/-- The on-disk state file as `_load_state` can observe it. -/
inductive StateFileContent where
  | snapshot (ids : List String)
  | corrupt
deriving DecidableEq, Repr

/-- The two externally visible steps of `_save_state`'s write
(base_watcher.py:111-112): `open(state_file, 'w')` first truncates the
file (an empty file is not valid JSON, hence `corrupt`), then
`json.dump` writes the complete new snapshot. -/
inductive SaveStep where
  | truncate
  | write_json
deriving DecidableEq, Repr

def apply_save_step (new_ids : List String) (_file : StateFileContent) :
    SaveStep → StateFileContent
  | .truncate => .corrupt
  | .write_json => .snapshot new_ids

def save_state_steps : List SaveStep := [.truncate, .write_json]

/-- The state file after the first `k` steps of a save of `new_ids` that
started with `file` on disk; `k < 2` models an interruption mid-save. -/
def file_after_save (new_ids : List String) (file : StateFileContent) (k : Nat) :
    StateFileContent :=
  (save_state_steps.take k).foldl (apply_save_step new_ids) file

/-- Model of `BaseWatcher._load_state` (base_watcher.py:93-103): a parse failure
is caught and logged, leaving `processed_ids` at its initial empty value
("start fresh"). -/
def load_ids : StateFileContent → List String
  | .snapshot ids => ids
  | .corrupt => []

/-- The operations a `FileSystemWatcher` process performs on its dedup
state during its lifetime (the loop bodies of `run` and the watchdog
handler): a periodic `check_for_updates` scan, a `process_file` call, or
a direct `create_action_file` call. -/
inductive WatcherOp where
  | scan (drop : List DropFile)
  | handle (copy_ok write_ok : Bool) (timestamp : String) (f : DropFile)
  | materialize (write_ok : Bool) (timestamp : String) (f : DropFile)

def apply_watcher_op (s : FSWatcherState) : WatcherOp → FSWatcherState
  | .scan drop => (check_for_updates drop s).2
  | .handle c w ts f => process_file c w ts f s
  | .materialize w ts f => (create_action_file w ts f s).2

def run_watcher_ops (ops : List WatcherOp) (s : FSWatcherState) : FSWatcherState :=
  ops.foldl apply_watcher_op s

/-! ## Task dispatcher (`Orchestrator.trigger_qwen`, orchestrator.py:201-258) -/

/-- The possible outcomes of the `subprocess.run` call on the `qwen`
command: a completed process (any exit code), `subprocess.TimeoutExpired`,
`FileNotFoundError`, or any other exception. -/
inductive RunOutcome where
  | completed (returncode : Int) (stdout stderr : String)
  | timed_out
  | not_found
  | other_error
deriving DecidableEq, Repr

/-- The hard-coded `timeout=300` (seconds) of the `subprocess.run` call
(orchestrator.py:237). -/
def QWEN_TIMEOUT_SECONDS : Nat := 300

/-- Model of `Orchestrator.trigger_qwen` (orchestrator.py:201-258), as a function
of the working directory before the call (`original_dir`, from
`os.getcwd()`), the vault path, and the subprocess outcome.  Result: the
returned boolean and the process working directory after the call.  The
method does `os.chdir(vault_path)`, runs the subprocess, and executes
`os.chdir(original_dir)` only on the straight-line path; each `except`
arm returns `False` without restoring the directory. -/
def trigger_qwen (original_dir vault_path : String) (o : RunOutcome) :
    Bool × String :=
  match o with
  | .completed rc _ _ => ((rc == 0), original_dir)
  | .timed_out => (false, vault_path)
  | .not_found => (false, vault_path)
  | .other_error => (false, vault_path)

/-! ## Orchestrator pending-item handling (orchestrator.py:107-123, 276-314) -/

/-- An entry of the `Needs_Action` directory as the orchestrator sees it:
a name and an `st_mtime` (modelled as a `Nat` tick). -/
structure PendingFile where
  name : String
  mtime : Nat
deriving DecidableEq, Repr

/-- Python `Path.suffix == '.md'`: the name ends in `.md` and is not the bare
`.md` (for which `pathlib` reports an empty suffix). -/
def suffix_is_md (n : String) : Bool :=
  py_endswith n ".md" && !(n == ".md")

/-- Stable insertion of `f` into a list sorted by `mtime`, keeping `f`
after all earlier-or-equal elements (the stability `sorted` provides). -/
def insert_by_mtime (f : PendingFile) : List PendingFile → List PendingFile
  | [] => [f]
  | g :: gs => if g.mtime ≤ f.mtime then g :: insert_by_mtime f gs
               else f :: g :: gs

/-- Python `sorted(pending, key=lambda x: x.stat().st_mtime)`: a stable sort by
mtime. -/
def sort_by_mtime (l : List PendingFile) : List PendingFile :=
  l.foldr insert_by_mtime []

/-- Model of `Orchestrator.get_pending_items` (orchestrator.py:113-123): the `.md`
entries of `Needs_Action` not in the in-memory `processed_files` set,
sorted by mtime. -/
def get_pending_items (folder : List PendingFile) (processed : List String) :
    List PendingFile :=
  sort_by_mtime (folder.filter fun f =>
    suffix_is_md f.name && !(processed.contains f.name))

/-- Model of `Orchestrator.process_pending_items` (orchestrator.py:276-314), as a
function of the folder listing, the in-memory `processed_files` set and
the dispatch outcome (`trigger_qwen`'s boolean): returns the new
`processed_files`.  With no pending items no dispatch happens; on a
successful dispatch every batch member is added; on a failed dispatch
none is. -/
def process_pending_items (folder : List PendingFile) (processed : List String)
    (dispatch_ok : Bool) : List String :=
  let pending := get_pending_items folder processed
  if pending.isEmpty then processed
  else if dispatch_ok then
    pending.foldl (fun acc f => py_set_add acc f.name) processed
  else processed

/-! ## Dashboard aggregator (`Orchestrator.update_dashboard`, orchestrator.py:125-199) -/

/-- The marker line of the stats region. -/
def quick_stats_marker : String := "## 📊 Quick Stats"

/-- The status cell of the `Pending Tasks` row (orchestrator.py:156). -/
def pending_status (pending_count : Nat) : String :=
  if pending_count = 0 then "✅ Clear"
  else "⚠️ " ++ toString pending_count ++ " item(s)"

/-- The status cell of the `Awaiting Approval` row (orchestrator.py:160). -/
def approval_status (approval_count : Nat) : String :=
  if approval_count = 0 then "✅ Clear"
  else "⏳ " ++ toString approval_count ++ " awaiting"

/-- The status cell of the `Tasks Completed Today` row (orchestrator.py:164). -/
def today_status (done_today : Nat) : String :=
  if done_today > 0 then "📈 " ++ toString done_today ++ " done"
  else "📊 No activity"

/-- The freshly composed `stats_lines` block (orchestrator.py:149-168). -/
def stats_lines (pending_count approval_count done_today : Nat) : List String :=
  [quick_stats_marker,
   "",
   "| Metric | Value | Status |",
   "|--------|-------|--------|",
   "| Pending Tasks | " ++ toString pending_count ++ " | " ++
     pending_status pending_count ++ " |",
   "| Awaiting Approval | " ++ toString approval_count ++ " | " ++
     approval_status approval_count ++ " |",
   "| Tasks Completed Today | " ++ toString done_today ++ " | " ++
     today_status done_today ++ " |",
   "",
   "---"]

/-- The test `line.strip() == "## 📊 Quick Stats"` (Python `str.strip`, modelled
by `py_strip`). -/
def is_marker_line (l : String) : Bool := py_strip l == quick_stats_marker

/-- The test `line.strip() == "---"`. -/
def is_sep_line (l : String) : Bool := py_strip l == "---"

/-- The replacement loop of `update_dashboard` (orchestrator.py:170-186):
walks the document lines with the two flags `in_stats` and
`stats_replaced`, drops the old stats region, and splices in the fresh
`stats` block at the first `---` found inside it.  Returns the new lines
and the final `stats_replaced` flag. -/
def replace_stats (stats : List String) :
    List String → Bool → Bool → List String × Bool
  | [], _, replaced => ([], replaced)
  | l :: ls, in_stats, replaced =>
    if is_marker_line l then replace_stats stats ls true replaced
    else if in_stats && is_sep_line l && !replaced then
      (stats ++ (replace_stats stats ls false true).1,
       (replace_stats stats ls false true).2)
    else if !in_stats then
      (l :: (replace_stats stats ls in_stats replaced).1,
       (replace_stats stats ls in_stats replaced).2)
    else replace_stats stats ls in_stats replaced

/-- The fallback insertion loop (orchestrator.py:188-193): the first line
with index `> 5` that strips to `---` gets the stats block spliced in
right after it; `none` when no such line exists (then the document is
left as is). -/
def insert_after_sep (stats : List String) (i : Nat) :
    List String → Option (List String)
  | [] => none
  | l :: ls =>
    if is_sep_line l && decide (i > 5) then some (l :: (stats ++ ls))
    else match insert_after_sep stats (i + 1) ls with
         | some r => some (l :: r)
         | none => none

/-- The full line-level rewrite of `update_dashboard`: the replacement
pass followed, when no stats region was replaced, by the fallback
insertion. -/
def update_lines (stats ls : List String) : List String :=
  let p := replace_stats stats ls false false
  if p.2 then p.1
  else
    match insert_after_sep stats 0 p.1 with
    | some r => r
    | none => p.1

/-- Python `content.split('\n')` on the character list: splits at every
newline, keeping empty pieces (`"".split('\n') == ['']`). -/
def split_nl : List Char → List (List Char)
  | [] => [[]]
  | c :: cs =>
    if c = '\n' then [] :: split_nl cs
    else
      match split_nl cs with
      | [] => [[c]]
      | t :: ts => (c :: t) :: ts

/-- Python `'\n'.join(pieces)` on character lists. -/
def join_nl : List (List Char) → List Char
  | [] => []
  | [p] => p
  | p :: ps => p ++ '\n' :: join_nl ps

/-- Python `content.split('\n')` at the `String` level. -/
def py_split_lines (s : String) : List String :=
  (split_nl s.data).map String.mk

/-- Python `'\n'.join(lines)` at the `String` level. -/
def py_join_lines (ls : List String) : String :=
  ⟨join_nl (ls.map String.data)⟩

/-- A line with no embedded newline (true of every line produced by
`split('\n')` and of every line of the stats block). -/
def no_nl_line (l : String) : Bool := !(l.data.contains '\n')

def no_nl_lines (ls : List String) : Bool := ls.all no_nl_line

/-- Model of `Orchestrator.update_dashboard`'s document rewrite, from the freshly
computed stats block and the current document text to the text written
back (orchestrator.py:146-195: `read_text`, `split('\n')`, the two
loops, `'\n'.join`, `write_text`). -/
def update_dashboard (stats : List String) (doc : String) : String :=
  py_join_lines (update_lines stats (py_split_lines doc))

/-! ## Orchestrator loop (orchestrator.py:107-111, 316-364) -/

/-- Model of `Orchestrator.count_files`: the `.md`, non-dot entries of a folder. -/
def count_files (folder : List PendingFile) : Nat :=
  (folder.filter fun f => suffix_is_md f.name && !(py_startswith f.name ".")).length

/-- Python `needle in hay` on strings (substring test), on char lists. -/
def starts_with_chars : List Char → List Char → Bool
  | [], _ => true
  | _ :: _, [] => false
  | n :: ns, h :: hs => n = h && starts_with_chars ns hs

def has_substr (needle : List Char) : List Char → Bool
  | [] => needle.isEmpty
  | c :: cs => starts_with_chars needle (c :: cs) || has_substr needle cs

/-- The `done_today` count of `update_dashboard` (orchestrator.py:139-143):
entries of `Done` whose name contains today's date. -/
def done_today_count (done_folder : List String) (today : String) : Nat :=
  (done_folder.filter fun n => has_substr today.data n.data).length

/-- One observable step of an orchestration cycle, for the order-of-steps
claims. -/
inductive OrchStep where
  | dashboard_refresh
  | process_pending
  | check_approvals_step
  | sleep_step
deriving DecidableEq, Repr

/-- The orchestrator state: the folder listings and dashboard text it
reads and writes, the in-memory `processed_files` set, the dispatch
outcome the external agent would produce this cycle, and the trace of
steps performed. -/
structure OrchState where
  dashboard_doc : String
  needs_action : List PendingFile
  pending_approval : List PendingFile
  done_folder : List String
  today : String
  processed_files : List String
  dispatch_ok : Bool
  trace : List OrchStep
deriving DecidableEq, Repr

/-- The call `self.update_dashboard()` as a cycle step. -/
def step_update_dashboard (s : OrchState) : OrchState :=
  { s with
    dashboard_doc :=
      update_dashboard
        (stats_lines (count_files s.needs_action)
          (count_files s.pending_approval)
          (done_today_count s.done_folder s.today))
        s.dashboard_doc,
    trace := s.trace ++ [.dashboard_refresh] }

/-- The call `self.process_pending_items()` as a cycle step. -/
def step_process_pending (s : OrchState) : OrchState :=
  { s with
    processed_files :=
      process_pending_items s.needs_action s.processed_files s.dispatch_ok,
    trace := s.trace ++ [.process_pending] }

/-- The call `self.check_approvals()` (orchestrator.py:316-326): only logs the
entries of `Approved`; no state change. -/
def step_check_approvals (s : OrchState) : OrchState :=
  { s with trace := s.trace ++ [.check_approvals_step] }

/-- The call `time.sleep(self.check_interval)` as a cycle step. -/
def step_sleep_interval (s : OrchState) : OrchState :=
  { s with trace := s.trace ++ [.sleep_step] }

/-- The body of one iteration of `Orchestrator.run`'s `while True`
(orchestrator.py:335-347): update dashboard, process pending items, check
approvals, sleep. -/
def run_cycle (s : OrchState) : OrchState :=
  step_sleep_interval (step_check_approvals (step_process_pending
    (step_update_dashboard s)))

/-- Model of `Orchestrator.run_once` (orchestrator.py:359-364): update dashboard,
process pending items, check approvals, update dashboard again. -/
def run_once (s : OrchState) : OrchState :=
  step_update_dashboard (step_check_approvals (step_process_pending
    (step_update_dashboard s)))

/-! ## Auxiliary predicates used by the theorems -/

/-- Model of `Path.write_text` into a directory modelled as an association list
of `(file name, content)`: writing replaces any existing file of that
name. -/
def write_text (folder : List (String × String)) (path content : String) :
    List (String × String) :=
  (folder.filter fun e => !(e.1 == path)) ++ [(path, content)]

/-- Inner lines of a stats block: none may strip to `---` (which would
close the region early), and the block must end with a line that strips
to `---` but not to the marker. -/
def mid_ok : List String → Bool
  | [] => false
  | [l] => is_sep_line l && !is_marker_line l
  | l :: ls => !is_sep_line l && mid_ok ls

/-- A well-formed stats block: starts with a line that strips to the
marker, followed by `mid_ok` lines.  `stats_lines` satisfies this for
every concrete count triple. -/
def good_stats : List String → Bool
  | [] => false
  | l :: ls => is_marker_line l && mid_ok ls

/-- No line of `ls` strips to the stats marker. -/
def MarkerFree (ls : List String) : Prop :=
  ∀ l ∈ ls, is_marker_line l = false

/-- The shape of every document produced by `update_lines`: either a
single well-delimited stats block between marker-free surroundings, or a
marker-free document in which the fallback insertion finds no place. -/
def DashCanonical (stats out : List String) : Prop :=
  (∃ P T, out = P ++ stats ++ T ∧ MarkerFree P ∧ MarkerFree T) ∨
  (MarkerFree out ∧ insert_after_sep stats 0 out = none)

/-! # Theorems -/

/-! ## State-store persistence: cap and eviction order (C2) -/

theorem foldl_py_set_add_of_disjoint {α : Type} [DecidableEq α] :
    ∀ (adds acc : List α), adds.Nodup → (∀ x ∈ adds, x ∉ acc) →
      adds.foldl py_set_add acc = acc ++ adds
  | [], acc, _, _ => by simp
  | a :: adds, acc, hnd, hdisj => by
    have hna : a ∉ acc := hdisj a (by simp)
    have hnd' := List.nodup_cons.mp hnd
    simp only [List.foldl_cons, py_set_add, if_neg hna]
    rw [foldl_py_set_add_of_disjoint adds (acc ++ [a]) hnd'.2]
    · simp
    · intro x hx
      simp only [List.mem_append, List.mem_singleton]
      rintro (h | rfl)
      · exact hdisj x (by simp [hx]) h
      · exact hnd'.1 hx

theorem insertion_list_eq_self_of_nodup {α : Type} [DecidableEq α]
    (adds : List α) (h : adds.Nodup) : insertion_list adds = adds := by
  simpa [insertion_list] using foldl_py_set_add_of_disjoint adds [] h (by simp)

/-- Counterexample for C2.  Insert the 1001 distinct ids `0, …, 1000`
in that order; the set's enumeration may come out in any order, e.g.
reversed (CPython guarantees no particular one for hash-randomized
elements).  `_save_state` then persists the last 1000 enumeration
elements: the oldest-inserted id `0` is kept and the newest id `1000`
is evicted — the evicted entry is not the oldest-inserted one, so
eviction is not FIFO by insertion order. -/
theorem save_ids_not_fifo_cex :
    insertion_list (List.range 1001) = List.range 1001 ∧
    set_iteration_ok (insertion_list (List.range 1001)) ((List.range 1001).reverse) ∧
    0 ∈ save_ids ((List.range 1001).reverse) ∧
    1000 ∉ save_ids ((List.range 1001).reverse) := by
  have hins : insertion_list (List.range 1001) = List.range 1001 :=
    insertion_list_eq_self_of_nodup _ (List.nodup_range 1001)
  have hrev : (List.range 1001).reverse = 1000 :: (List.range 1000).reverse := by
    rw [show (1001 : Nat) = 1000 + 1 from rfl, List.range_succ, List.reverse_append]
    simp
  have hsave : save_ids ((List.range 1001).reverse) = (List.range 1000).reverse := by
    rw [save_ids, List.length_reverse, List.length_range, hrev]
    rfl
  refine ⟨hins, ⟨List.nodup_reverse.mpr (List.nodup_range 1001), ?_⟩, ?_, ?_⟩
  · intro x
    rw [hins, List.mem_reverse]
  · rw [hsave, List.mem_reverse, List.mem_range]
    omega
  · rw [hsave, List.mem_reverse, List.mem_range]
    omega

/-- C2, amended: whatever enumeration order the set's `list(...)`
call produces, the persisted list `list(processed_ids)[-1000:]` has at
most 1000 entries and contains only members of the set; the evicted
entries, however, are the leading entries of that unspecified
enumeration, not necessarily the oldest-inserted ones. -/
theorem save_ids_capped {α : Type} (members e : List α)
    (h : set_iteration_ok members e) :
    (save_ids e).length ≤ 1000 ∧ ∀ x ∈ save_ids e, x ∈ members := by
  constructor
  · rw [save_ids, List.length_drop]
    omega
  · intro x hx
    exact (h.2 x).mp (List.drop_subset _ _ hx)

/-- Witness for `save_ids_capped` at the one-element set `{"a"}`. -/
theorem save_ids_capped_witness :
    (save_ids (["a"] : List String)).length ≤ 1000 :=
  (save_ids_capped ["a"] ["a"] ⟨List.nodup_singleton "a", fun _ => Iff.rfl⟩).1

/-! ## State-store persistence: atomicity of the save (C3) -/

/-- Counterexample for C3.  `_save_state` writes the state file in
place: `open(state_file, 'w')` truncates it before `json.dump` writes
the new snapshot.  Interrupting between the two steps (`k = 1`) leaves a
truncated, unparsable file that is neither the previous snapshot
`{"processed_ids": ["a"]}` nor the new one `{"processed_ids": ["a","b"]}`. -/
theorem save_state_truncation_cex :
    file_after_save ["a", "b"] (.snapshot ["a"]) 1 = .corrupt ∧
    StateFileContent.corrupt ≠ .snapshot ["a"] ∧
    StateFileContent.corrupt ≠ .snapshot ["a", "b"] := by
  refine ⟨rfl, ?_, ?_⟩ <;> decide

/-- C3, amended: an interruption mid-save leaves the previous
snapshot, the new snapshot, or a truncated file; in the truncated case
`_load_state` treats the unparsable content as the empty set (start
fresh), so corruption is non-fatal but not prevented — the
write-temp-then-rename claim does not hold of the code. -/
theorem save_state_interruption_outcomes (new_ids : List String)
    (file : StateFileContent) (k : Nat) (h : k ≤ 2) :
    file_after_save new_ids file k = file ∨
    file_after_save new_ids file k = .snapshot new_ids ∨
    (file_after_save new_ids file k = .corrupt ∧
      load_ids (file_after_save new_ids file k) = []) := by
  interval_cases k
  · exact Or.inl rfl
  · exact Or.inr (Or.inr ⟨rfl, rfl⟩)
  · exact Or.inr (Or.inl rfl)

/-- Witness for `save_state_interruption_outcomes` at `k = 1`. -/
theorem save_state_interruption_outcomes_witness :
    file_after_save ["x"] (.snapshot []) 1 = .snapshot [] ∨
    file_after_save ["x"] (.snapshot []) 1 = .snapshot ["x"] ∨
    (file_after_save ["x"] (.snapshot []) 1 = .corrupt ∧
      load_ids (file_after_save ["x"] (.snapshot []) 1) = []) :=
  save_state_interruption_outcomes ["x"] (.snapshot []) 1 (by decide)

/-! ## Dispatcher: working-directory restoration (C4) -/

/-- C4, code bug: `trigger_qwen` does `os.chdir(self.vault_path)`
and restores `os.chdir(original_dir)` only on the straight-line path;
the `except` arms for `TimeoutExpired` and `FileNotFoundError` return
`False` without restoring, so after a timeout or a missing executable
the process is left in the vault directory, contradicting the
restored-regardless-of-outcome contract. -/
theorem trigger_qwen_cwd_not_restored :
    (trigger_qwen "/home/user" "/vault" .timed_out).2 = "/vault" ∧
    (trigger_qwen "/home/user" "/vault" .not_found).2 = "/vault" ∧
    (trigger_qwen "/home/user" "/vault" .other_error).2 = "/vault" ∧
    (trigger_qwen "/home/user" "/vault" (.completed 1 "" "")).2 = "/home/user" ∧
    "/vault" ≠ "/home/user" := by
  refine ⟨rfl, rfl, rfl, rfl, ?_⟩
  decide

/-! ## Dispatcher: outcome classification (C7) -/

/-- Counterexample for C7.  The result `trigger_qwen` returns for a
timeout is *equal* to the one it returns for a missing executable (both
are the bare boolean `False`, with the same side effect on the working
directory): the not-found outcome is not distinct from the timeout
outcome in the returned result. -/
theorem trigger_qwen_timeout_notfound_indistinct_cex :
    trigger_qwen "/home/user" "/vault" .timed_out =
      trigger_qwen "/home/user" "/vault" .not_found := rfl

/-- C7, amended: `trigger_qwen` classifies outcomes only into a
boolean: `True` exactly for a zero exit code; nonzero exit, the 300 s
timeout, a missing executable, and any other exception all return
`False`, and timeout is indistinguishable from not-found in the returned
result (they differ only in log messages). -/
theorem trigger_qwen_bool_classification (original_dir vault_path : String)
    (rc : Int) (so se : String) :
    (trigger_qwen original_dir vault_path (.completed rc so se)).1 = (rc == 0) ∧
    (trigger_qwen original_dir vault_path .timed_out).1 = false ∧
    (trigger_qwen original_dir vault_path .not_found).1 = false ∧
    (trigger_qwen original_dir vault_path .other_error).1 = false ∧
    trigger_qwen original_dir vault_path .timed_out =
      trigger_qwen original_dir vault_path .not_found ∧
    QWEN_TIMEOUT_SECONDS = 300 :=
  ⟨rfl, rfl, rfl, rfl, rfl, rfl⟩

/-! ## Orchestrator cycle order (C9) -/

/-- Counterexample for C9.  One iteration of `Orchestrator.run`'s main
loop performs exactly dashboard refresh, pending processing, approval
check, sleep — a single dashboard refresh, not the claimed second
refresh before the sleep. -/
theorem run_cycle_single_refresh_cex :
    (run_cycle ⟨"", [], [], [], "2025-01-01", [], true, []⟩).trace =
      [.dashboard_refresh, .process_pending, .check_approvals_step, .sleep_step] ∧
    (run_cycle ⟨"", [], [], [], "2025-01-01", [], true, []⟩).trace ≠
      [.dashboard_refresh, .process_pending, .check_approvals_step,
       .dashboard_refresh, .sleep_step] := by
  exact ⟨rfl, by decide⟩

/-- C9, amended: the main loop's cycle order is refresh dashboard,
process pending items, check approvals, sleep — with one dashboard
refresh per cycle; only `run_once` (the `--once` test path) refreshes
the dashboard a second time, and it does not sleep. -/
theorem cycle_step_order (s : OrchState) :
    (run_cycle s).trace =
      s.trace ++ [.dashboard_refresh, .process_pending,
        .check_approvals_step, .sleep_step] ∧
    (run_once s).trace =
      s.trace ++ [.dashboard_refresh, .process_pending,
        .check_approvals_step, .dashboard_refresh] := by
  constructor <;>
    simp [run_cycle, run_once, step_update_dashboard, step_process_pending,
      step_check_approvals, step_sleep_interval]

/-! ## Watcher detection and registration (C1, C10) -/

/-- One `check_for_updates` loop iteration either leaves the accumulator
unchanged (dot file, or hash already seen) or appends the file to the
result and its hash to `processed_hashes`. -/
theorem check_step_cases (acc : List DropFile × FSWatcherState) (f : DropFile) :
    check_step acc f = acc ∨
    check_step acc f = (acc.1 ++ [f],
      { acc.2 with processed_hashes := acc.2.processed_hashes ++ [f.hash] }) := by
  unfold check_step
  split
  · exact Or.inl rfl
  · split
    · exact Or.inl rfl
    · exact Or.inr rfl

theorem check_step_noop (acc : List DropFile × FSWatcherState) (f : DropFile)
    (h : py_startswith f.name "." = true ∨ f.hash ∈ acc.2.processed_hashes) :
    check_step acc f = acc := by
  unfold check_step
  rcases h with hdot | hmem
  · rw [hdot]
    simp
  · split
    · rfl
    · rw [if_pos (by simpa using hmem)]

theorem check_step_hash_mem (acc : List DropFile × FSWatcherState) (f : DropFile)
    (hdot : py_startswith f.name "." = false) :
    f.hash ∈ (check_step acc f).2.processed_hashes := by
  unfold check_step
  rw [hdot]
  simp only [Bool.false_eq_true, if_false]
  split
  · next hcont => simpa using hcont
  · simp

theorem check_foldl_ids :
    ∀ (drop : List DropFile) (acc : List DropFile × FSWatcherState),
      (drop.foldl check_step acc).2.processed_ids = acc.2.processed_ids
  | [], _ => rfl
  | f :: drop, acc => by
    rw [List.foldl_cons, check_foldl_ids drop]
    rcases check_step_cases acc f with h | h <;> rw [h]

theorem check_foldl_hashes_ext :
    ∀ (drop : List DropFile) (acc : List DropFile × FSWatcherState),
      ∃ ext, (drop.foldl check_step acc).2.processed_hashes =
        acc.2.processed_hashes ++ ext
  | [], _ => ⟨[], by simp⟩
  | f :: drop, acc => by
    rw [List.foldl_cons]
    obtain ⟨ext, hext⟩ := check_foldl_hashes_ext drop (check_step acc f)
    rcases check_step_cases acc f with h | h <;> rw [h] at hext ⊢
    · exact ⟨ext, hext⟩
    · exact ⟨f.hash :: ext, by simpa [List.append_assoc] using hext⟩

theorem check_foldl_hashes_mono (drop : List DropFile)
    (acc : List DropFile × FSWatcherState) (x : String)
    (hx : x ∈ acc.2.processed_hashes) :
    x ∈ (drop.foldl check_step acc).2.processed_hashes := by
  obtain ⟨ext, hext⟩ := check_foldl_hashes_ext drop acc
  rw [hext]
  exact List.mem_append_left _ hx

theorem check_foldl_complete :
    ∀ (drop : List DropFile) (acc : List DropFile × FSWatcherState),
      ∀ f ∈ drop, py_startswith f.name "." = false →
        f.hash ∈ (drop.foldl check_step acc).2.processed_hashes
  | [], _, f, hf, _ => absurd hf (List.not_mem_nil f)
  | g :: drop, acc, f, hf, hdot => by
    rw [List.foldl_cons]
    rcases List.mem_cons.mp hf with rfl | hf'
    · exact check_foldl_hashes_mono drop _ _ (check_step_hash_mem acc f hdot)
    · exact check_foldl_complete drop (check_step acc g) f hf' hdot

theorem check_foldl_noop :
    ∀ (drop : List DropFile) (acc : List DropFile × FSWatcherState),
      (∀ f ∈ drop, py_startswith f.name "." = true ∨
        f.hash ∈ acc.2.processed_hashes) →
      drop.foldl check_step acc = acc
  | [], _, _ => rfl
  | f :: drop, acc, h => by
    rw [List.foldl_cons, check_step_noop acc f (h f (by simp))]
    exact check_foldl_noop drop acc (fun g hg => h g (by simp [hg]))

theorem check_foldl_returned_hashes :
    ∀ (drop : List DropFile) (acc : List DropFile × FSWatcherState),
      ∀ f ∈ (drop.foldl check_step acc).1,
        f ∈ acc.1 ∨ f.hash ∈ (drop.foldl check_step acc).2.processed_hashes
  | [], _, f, hf => Or.inl hf
  | g :: drop, acc, f, hf => by
    rw [List.foldl_cons] at hf ⊢
    rcases check_foldl_returned_hashes drop (check_step acc g) f hf with hmem | hh
    · rcases check_step_cases acc g with h | h
      · rw [h] at hmem
        exact Or.inl hmem
      · rw [h] at hmem
        rcases List.mem_append.mp hmem with hacc | hsing
        · exact Or.inl hacc
        · right
          apply check_foldl_hashes_mono
          rw [List.mem_singleton.mp hsing, h]
          simp
    · exact Or.inr hh

/-- Counterexample for C1.  Drop an initial state with no processed
hashes and a single file `report.pdf` with content hash `h1`.
`check_for_updates` returns the file *and already registers `h1` in the
in-memory `processed_hashes` set*; a subsequent failed
`create_action_file` changes nothing, and the next `check_for_updates`
over the same drop folder returns nothing — the item is *not* returned
again and is never retried within this process, contrary to the claim
that detection does not register and that a failed materialization
leaves the item retried on the next cycle. -/
theorem check_for_updates_registers_at_detection_cex :
    (check_for_updates [⟨"report.pdf", "h1", 3⟩] ⟨[], []⟩).1 =
      [⟨"report.pdf", "h1", 3⟩] ∧
    (check_for_updates [⟨"report.pdf", "h1", 3⟩] ⟨[], []⟩).2.processed_hashes =
      ["h1"] ∧
    create_action_file false "2025-01-01T00:00:00" ⟨"report.pdf", "h1", 3⟩
        (check_for_updates [⟨"report.pdf", "h1", 3⟩] ⟨[], []⟩).2 =
      (none, (check_for_updates [⟨"report.pdf", "h1", 3⟩] ⟨[], []⟩).2) ∧
    (check_for_updates [⟨"report.pdf", "h1", 3⟩]
        (check_for_updates [⟨"report.pdf", "h1", 3⟩] ⟨[], []⟩).2).1 = [] := by
  refine ⟨?_, ?_, ?_, ?_⟩ <;> decide

/-- C1, amended: `check_for_updates` itself registers every
returned item's content hash in the in-memory `processed_hashes` set at
detection time; a failed `create_action_file` registers nothing further
(it returns `None` with the state unchanged), but because detection
already registered the hash, a second `check_for_updates` over the same
drop folder returns no item — the item is not retried.  The persisted
`processed_ids` set is registered by neither operation. -/
theorem check_for_updates_detection_registration (drop : List DropFile)
    (s : FSWatcherState) (ts : String) (f : DropFile) :
    (check_for_updates drop s).2.processed_ids = s.processed_ids ∧
    (∀ g ∈ (check_for_updates drop s).1,
      g.hash ∈ (check_for_updates drop s).2.processed_hashes) ∧
    create_action_file false ts f s = (none, s) ∧
    (check_for_updates drop (check_for_updates drop s).2).1 = [] := by
  refine ⟨check_foldl_ids drop ([], s), ?_, rfl, ?_⟩
  · intro g hg
    rcases check_foldl_returned_hashes drop ([], s) g hg with hmem | hh
    · exact absurd hmem (List.not_mem_nil g)
    · exact hh
  · show (List.foldl check_step ([], (check_for_updates drop s).2) drop).1 = []
    rw [check_foldl_noop drop ([], (check_for_updates drop s).2) ?_]
    intro g hg
    by_cases hdot : py_startswith g.name "." = true
    · exact Or.inl hdot
    · exact Or.inr (check_foldl_complete drop ([], s) g hg
        (Bool.not_eq_true _ ▸ eq_false_of_ne_true hdot))

/-- Witness for `check_for_updates_detection_registration`: the returned
file's hash is registered at detection. -/
theorem check_for_updates_detection_registration_witness :
    (⟨"report.pdf", "h1", 3⟩ : DropFile).hash ∈
      (check_for_updates [⟨"report.pdf", "h1", 3⟩] ⟨[], []⟩).2.processed_hashes :=
  (check_for_updates_detection_registration [⟨"report.pdf", "h1", 3⟩] ⟨[], []⟩
    "2025-01-01T00:00:00" ⟨"report.pdf", "h1", 3⟩).2.1
    ⟨"report.pdf", "h1", 3⟩ (by decide)

/-- Neither `process_file` nor `create_action_file` touches `processed_ids`. -/
theorem apply_watcher_op_ids (s : FSWatcherState) (op : WatcherOp) :
    (apply_watcher_op s op).processed_ids = s.processed_ids := by
  cases op with
  | scan drop => exact check_foldl_ids drop ([], s)
  | handle c w ts f =>
    show (process_file c w ts f s).processed_ids = s.processed_ids
    unfold process_file create_action_file
    split
    · rfl
    · split
      · rfl
      · split <;> rfl
  | materialize w ts f =>
    show (create_action_file w ts f s).2.processed_ids = s.processed_ids
    unfold create_action_file
    split <;> rfl

/-- C10: no `FileSystemWatcher` operation — scanning, processing a
file, or materializing an action file, in any order and with any I/O
outcomes — ever inserts into `processed_ids` (the content-hash dedup
lives only in `processed_hashes`); hence a run starting from an empty
state file keeps `processed_ids` empty, every `_save_state` call
persists an empty `processed_ids` list, and content-hash deduplication
does not survive a restart. -/
theorem watcher_ops_preserve_processed_ids (ops : List WatcherOp)
    (s : FSWatcherState) :
    (run_watcher_ops ops s).processed_ids = s.processed_ids ∧
    (s.processed_ids = [] → ∀ e,
      set_iteration_ok (run_watcher_ops ops s).processed_ids e →
      save_ids e = []) := by
  have hids : ∀ (ops : List WatcherOp) (s : FSWatcherState),
      (run_watcher_ops ops s).processed_ids = s.processed_ids := by
    intro ops
    induction ops with
    | nil => intro s; rfl
    | cons op ops ih =>
      intro s
      show (run_watcher_ops ops (apply_watcher_op s op)).processed_ids = _
      rw [ih, apply_watcher_op_ids]
  refine ⟨hids ops s, fun h0 e he => ?_⟩
  have hempty : e = [] := by
    rw [List.eq_nil_iff_forall_not_mem]
    intro x hx
    have := (he.2 x).mp hx
    rw [hids, h0] at this
    exact absurd this (List.not_mem_nil x)
  rw [hempty]
  rfl

/-- Witness for `watcher_ops_preserve_processed_ids` on a short
scan/materialize run from the empty state. -/
theorem watcher_ops_preserve_processed_ids_witness :
    (run_watcher_ops [.scan [⟨"a.txt", "h", 1⟩],
        .materialize true "2025-01-01T00:00:00" ⟨"a.txt", "h", 1⟩]
      ⟨[], []⟩).processed_ids = [] ∧
    save_ids ([] : List String) = [] := by
  constructor
  · exact (watcher_ops_preserve_processed_ids
      [.scan [⟨"a.txt", "h", 1⟩],
       .materialize true "2025-01-01T00:00:00" ⟨"a.txt", "h", 1⟩] ⟨[], []⟩).1
  · exact (watcher_ops_preserve_processed_ids
      [.scan [⟨"a.txt", "h", 1⟩],
       .materialize true "2025-01-01T00:00:00" ⟨"a.txt", "h", 1⟩] ⟨[], []⟩).2
      rfl [] ⟨List.nodup_nil, fun x => by
        have hrun : (run_watcher_ops [.scan [⟨"a.txt", "h", 1⟩],
            .materialize true "2025-01-01T00:00:00" ⟨"a.txt", "h", 1⟩]
          ⟨[], []⟩).processed_ids = [] := by decide
        rw [hrun]⟩

/-! ## Orchestrator batch dispatch marking (C8) -/

theorem mem_insert_by_mtime (f a : PendingFile) :
    ∀ l : List PendingFile, a ∈ insert_by_mtime f l ↔ a = f ∨ a ∈ l
  | [] => by simp [insert_by_mtime]
  | g :: gs => by
    unfold insert_by_mtime
    split
    · rw [List.mem_cons, mem_insert_by_mtime f a gs, List.mem_cons]
      tauto
    · simp [List.mem_cons]

theorem mem_sort_by_mtime (a : PendingFile) :
    ∀ l : List PendingFile, a ∈ sort_by_mtime l ↔ a ∈ l
  | [] => Iff.rfl
  | f :: l => by
    show a ∈ insert_by_mtime f (sort_by_mtime l) ↔ _
    rw [mem_insert_by_mtime, mem_sort_by_mtime a l, List.mem_cons]

theorem mem_py_set_add {α : Type} [DecidableEq α] (s : List α) (x a : α) :
    a ∈ py_set_add s x ↔ a ∈ s ∨ a = x := by
  unfold py_set_add
  split
  · next h =>
    constructor
    · exact Or.inl
    · rintro (ha | rfl)
      · exact ha
      · exact h
  · simp

theorem mem_foldl_py_set_add_of_mem {α : Type} [DecidableEq α] (x : α) :
    ∀ (names : List α) (acc : List α), x ∈ acc →
      x ∈ names.foldl py_set_add acc
  | [], _, hx => hx
  | n :: names, acc, hx =>
    mem_foldl_py_set_add_of_mem x names (py_set_add acc n)
      ((mem_py_set_add acc n x).mpr (Or.inl hx))

theorem mem_foldl_py_set_add_of_listed {α : Type} [DecidableEq α] (x : α) :
    ∀ (names : List α) (acc : List α), x ∈ names →
      x ∈ names.foldl py_set_add acc
  | [], _, hx => absurd hx (List.not_mem_nil x)
  | n :: names, acc, hx => by
    rcases List.mem_cons.mp hx with rfl | hx'
    · exact mem_foldl_py_set_add_of_mem x names _
        ((mem_py_set_add acc x x).mpr (Or.inr rfl))
    · exact mem_foldl_py_set_add_of_listed x names _ hx'

theorem process_pending_items_false_eq (folder : List PendingFile)
    (processed : List String) :
    process_pending_items folder processed false = processed := by
  simp [process_pending_items]

theorem process_pending_items_true_eq (folder : List PendingFile)
    (processed : List String) :
    process_pending_items folder processed true =
      ((get_pending_items folder processed).map PendingFile.name).foldl
        py_set_add processed := by
  by_cases hemp : (get_pending_items folder processed).isEmpty
  · simp [process_pending_items, hemp, List.isEmpty_iff.mp hemp]
  · simp [process_pending_items, hemp, List.foldl_map]

/-- C8: in every cycle, a failed dispatch leaves the in-memory
`processed_files` set exactly unchanged (the whole batch stays pending),
a successful dispatch marks every item of the dispatched batch, and
after a successful dispatch a re-collection over the same folder offers
no item (they are not re-collected this run). -/
theorem process_pending_items_batch_marking (folder : List PendingFile)
    (processed : List String) :
    process_pending_items folder processed false = processed ∧
    (∀ f ∈ get_pending_items folder processed,
      f.name ∈ process_pending_items folder processed true) ∧
    get_pending_items folder (process_pending_items folder processed true) = [] := by
  have hsub : ∀ x ∈ processed, x ∈ process_pending_items folder processed true := by
    intro x hx
    rw [process_pending_items_true_eq]
    exact mem_foldl_py_set_add_of_mem x _ processed hx
  have hmark : ∀ f ∈ get_pending_items folder processed,
      f.name ∈ process_pending_items folder processed true := by
    intro f hf
    rw [process_pending_items_true_eq]
    exact mem_foldl_py_set_add_of_listed f.name _ processed
      (List.mem_map_of_mem PendingFile.name hf)
  refine ⟨process_pending_items_false_eq folder processed, hmark, ?_⟩
  unfold get_pending_items
  have hfilter : (folder.filter fun f =>
      suffix_is_md f.name &&
        !((process_pending_items folder processed true).contains f.name)) = [] := by
    rw [List.filter_eq_nil_iff]
    intro f hf
    simp only [Bool.and_eq_true, Bool.not_eq_true', not_and]
    intro hmd
    by_cases hproc : f.name ∈ processed
    · simp [hsub f.name hproc]
    · have hpend : f ∈ get_pending_items folder processed := by
        unfold get_pending_items
        rw [mem_sort_by_mtime, List.mem_filter]
        refine ⟨hf, ?_⟩
        simp [hmd, hproc]
      simp [hmark f hpend]
  rw [hfilter]
  rfl

/-- Witness for `process_pending_items_batch_marking`: the single
pending item `a.md` is marked by a successful dispatch. -/
theorem process_pending_items_batch_marking_witness :
    (⟨"a.md", 1⟩ : PendingFile).name ∈
      process_pending_items [⟨"a.md", 1⟩] [] true :=
  (process_pending_items_batch_marking [⟨"a.md", 1⟩] []).2.1
    ⟨"a.md", 1⟩ (by decide)

/-! ## Action-file naming and same-day overwrite (C6) -/

set_option maxRecDepth 8192 in
/-- Counterexample for C6.  Two distinct work items (same source name
`report.pdf`, different content hashes `aaa` and `bbb`) processed on the
same day get the *same* action-file path `FILE_report_2025-06-01.md`;
their contents differ (the hash is embedded), and `write_text` of the
second replaces the first: the second creation *does* overwrite the
first within the same day. -/
theorem action_file_same_day_overwrite_cex :
    (⟨"report.pdf", "aaa", 3⟩ : DropFile) ≠ ⟨"report.pdf", "bbb", 3⟩ ∧
    (create_action_file true "2025-06-01T10:00:00" ⟨"report.pdf", "aaa", 3⟩
      ⟨[], []⟩).1 = some "FILE_report_2025-06-01.md" ∧
    (create_action_file true "2025-06-01T11:00:00" ⟨"report.pdf", "bbb", 3⟩
      ⟨[], ["aaa"]⟩).1 = some "FILE_report_2025-06-01.md" ∧
    action_file_content ⟨"report.pdf", "aaa", 3⟩ "Files/report.pdf"
        "2025-06-01T10:00:00" "3.0 B" ≠
      action_file_content ⟨"report.pdf", "bbb", 3⟩ "Files/report.pdf"
        "2025-06-01T11:00:00" "3.0 B" ∧
    write_text
        (write_text [] "FILE_report_2025-06-01.md"
          (action_file_content ⟨"report.pdf", "aaa", 3⟩ "Files/report.pdf"
            "2025-06-01T10:00:00" "3.0 B"))
        "FILE_report_2025-06-01.md"
        (action_file_content ⟨"report.pdf", "bbb", 3⟩ "Files/report.pdf"
          "2025-06-01T11:00:00" "3.0 B") =
      [("FILE_report_2025-06-01.md",
        action_file_content ⟨"report.pdf", "bbb", 3⟩ "Files/report.pdf"
          "2025-06-01T11:00:00" "3.0 B")] := by
  refine ⟨?_, ?_, ?_, ?_, ?_⟩ <;> decide

/-- C6, amended: the action-file path is a function of exactly the
sanitized source stem and the 10-character discovery date
`timestamp[:10]` — injective in that pair, so items with different
sanitized titles or different days never collide; but two same-day items
with the same sanitized title receive the *same* path, and the second
`write_text` overwrites the first. -/
theorem action_file_name_determined (n1 n2 d1 d2 : String)
    (hd1 : d1.length = 10) (hd2 : d2.length = 10) :
    action_file_name n1 d1 = action_file_name n2 d2 ↔
      sanitize_filename (py_stem n1) = sanitize_filename (py_stem n2) ∧
        d1 = d2 := by
  constructor
  · intro h
    have hdata := congrArg String.data h
    simp only [action_file_name, String.data_append, List.append_assoc] at hdata
    have h1 := List.append_cancel_left hdata
    have hl1 : d1.data.length = 10 := hd1
    have hl2 : d2.data.length = 10 := hd2
    have hlen : ("_".data ++ (d1.data ++ ".md".data)).length =
        ("_".data ++ (d2.data ++ ".md".data)).length := by
      simp [List.length_append, hl1, hl2]
    obtain ⟨ha, hrest⟩ := List.append_inj' h1 hlen
    have h2 := List.append_cancel_left hrest
    obtain ⟨hd, -⟩ := List.append_inj h2 (by rw [hl1, hl2])
    exact ⟨String.ext ha, String.ext hd⟩
  · rintro ⟨hs, rfl⟩
    rw [action_file_name, action_file_name, hs]

/-- Witness for `action_file_name_determined`: equal sanitized stems and
equal dates give the same path. -/
theorem action_file_name_determined_witness :
    ("2025-06-01" : String).length = 10 ∧
    action_file_name "report v1.pdf" "2025-06-01" =
      action_file_name "report v1.pdf" "2025-06-01" :=
  ⟨rfl, (action_file_name_determined "report v1.pdf" "report v1.pdf"
    "2025-06-01" "2025-06-01" rfl rfl).mpr ⟨rfl, rfl⟩⟩

/-! ## Dashboard refresh idempotence (C5) -/

theorem replace_stats_cons_marker (stats : List String) (l : String)
    (ls : List String) (i r : Bool) (h : is_marker_line l = true) :
    replace_stats stats (l :: ls) i r = replace_stats stats ls true r := by
  simp [replace_stats, h]

theorem replace_stats_cons_close (stats : List String) (l : String)
    (ls : List String) (h1 : is_marker_line l = false)
    (h2 : is_sep_line l = true) :
    replace_stats stats (l :: ls) true false =
      (stats ++ (replace_stats stats ls false true).1,
       (replace_stats stats ls false true).2) := by
  simp [replace_stats, h1, h2]

theorem replace_stats_cons_emit (stats : List String) (l : String)
    (ls : List String) (r : Bool) (h1 : is_marker_line l = false) :
    replace_stats stats (l :: ls) false r =
      (l :: (replace_stats stats ls false r).1,
       (replace_stats stats ls false r).2) := by
  simp [replace_stats, h1]

theorem replace_stats_cons_drop_nosep (stats : List String) (l : String)
    (ls : List String) (r : Bool) (h1 : is_marker_line l = false)
    (h2 : is_sep_line l = false) :
    replace_stats stats (l :: ls) true r = replace_stats stats ls true r := by
  simp [replace_stats, h1, h2]

theorem replace_stats_cons_drop_replaced (stats : List String) (l : String)
    (ls : List String) (h1 : is_marker_line l = false) :
    replace_stats stats (l :: ls) true true = replace_stats stats ls true true := by
  simp [replace_stats, h1]

/-- A pass over marker-free lines outside the stats region copies them
verbatim and leaves the `stats_replaced` flag alone. -/
theorem replace_stats_marker_free (stats : List String) :
    ∀ (ls : List String) (r : Bool), MarkerFree ls →
      replace_stats stats ls false r = (ls, r)
  | [], _, _ => rfl
  | l :: ls, r, h => by
    rw [replace_stats_cons_emit stats l ls r (h l (List.mem_cons_self l ls)),
        replace_stats_marker_free stats ls r
          (fun x hx => h x (List.mem_cons_of_mem l hx))]

/-- Once the region is replaced and a later marker re-entered the
in-stats state, everything remaining is dropped. -/
theorem replace_stats_swallow (stats : List String) :
    ∀ ls : List String, replace_stats stats ls true true = ([], true)
  | [] => rfl
  | l :: ls => by
    by_cases hm : is_marker_line l = true
    · rw [replace_stats_cons_marker stats l ls true true hm,
          replace_stats_swallow stats ls]
    · rw [Bool.not_eq_true] at hm
      rw [replace_stats_cons_drop_replaced stats l ls hm,
          replace_stats_swallow stats ls]

/-- After the region is replaced, lines are copied until the next
marker; from there on everything is dropped. -/
theorem replace_stats_done (stats : List String) :
    ∀ ls : List String, replace_stats stats ls false true =
      (ls.takeWhile (fun l => !is_marker_line l), true)
  | [] => rfl
  | l :: ls => by
    by_cases hm : is_marker_line l = true
    · rw [replace_stats_cons_marker stats l ls false true hm,
          replace_stats_swallow stats ls, List.takeWhile_cons]
      simp [hm]
    · rw [Bool.not_eq_true] at hm
      rw [replace_stats_cons_emit stats l ls true hm,
          replace_stats_done stats ls, List.takeWhile_cons]
      simp [hm]

/-- Processing the inner lines of a well-formed stats block from the
in-stats state emits the fresh block at the closing `---` and then
behaves like `replace_stats_done`. -/
theorem replace_stats_mid (stats : List String) :
    ∀ mid : List String, mid_ok mid = true → ∀ T : List String,
      replace_stats stats (mid ++ T) true false =
        (stats ++ T.takeWhile (fun l => !is_marker_line l), true)
  | [], h, _ => by simp [mid_ok] at h
  | [l], h, T => by
    simp only [mid_ok, Bool.and_eq_true, Bool.not_eq_true'] at h
    show replace_stats stats (l :: T) true false = _
    rw [replace_stats_cons_close stats l T h.2 h.1, replace_stats_done stats T]
  | l :: l' :: mid, h, T => by
    simp only [mid_ok, Bool.and_eq_true, Bool.not_eq_true'] at h
    have hrec := replace_stats_mid stats (l' :: mid) h.2 T
    by_cases hm : is_marker_line l = true
    · rw [List.cons_append, replace_stats_cons_marker stats l _ true false hm]
      exact hrec
    · rw [Bool.not_eq_true] at hm
      rw [List.cons_append,
          replace_stats_cons_drop_nosep stats l _ false hm h.1]
      exact hrec

/-- Processing a well-formed stats block itself (marker line, inner
lines, closing `---`) replaces it by the fresh block. -/
theorem replace_stats_good (stats : List String)
    (hg : good_stats stats = true) :
    ∀ T : List String, replace_stats stats (stats ++ T) false false =
      (stats ++ T.takeWhile (fun l => !is_marker_line l), true) := by
  intro T
  match stats, hg with
  | l :: mid, hg =>
    simp only [good_stats, Bool.and_eq_true] at hg
    rw [List.cons_append, replace_stats_cons_marker _ l _ false false hg.1]
    exact replace_stats_mid (l :: mid) mid hg.2 T

/-- A marker-free prefix is copied verbatim ahead of whatever the pass
does with the rest. -/
theorem replace_stats_prefix (stats : List String) :
    ∀ (P rest : List String), MarkerFree P →
      replace_stats stats (P ++ rest) false false =
        (P ++ (replace_stats stats rest false false).1,
         (replace_stats stats rest false false).2)
  | [], rest, _ => by simp
  | l :: P, rest, h => by
    rw [List.cons_append,
        replace_stats_cons_emit stats l _ false (h l (List.mem_cons_self l P)),
        replace_stats_prefix stats P rest
          (fun x hx => h x (List.mem_cons_of_mem l hx))]
    simp

/-- If the pass ends with `stats_replaced = false`, its output contains
no marker line. -/
theorem replace_stats_false_marker_free (stats : List String) :
    ∀ (ls : List String) (i : Bool),
      (replace_stats stats ls i false).2 = false →
      MarkerFree (replace_stats stats ls i false).1
  | [], _, _ => fun x hx => absurd hx (List.not_mem_nil x)
  | l :: ls, i, hf => by
    by_cases hm : is_marker_line l = true
    · rw [replace_stats_cons_marker stats l ls i false hm] at hf ⊢
      exact replace_stats_false_marker_free stats ls true hf
    · rw [Bool.not_eq_true] at hm
      cases i with
      | false =>
        rw [replace_stats_cons_emit stats l ls false hm] at hf ⊢
        intro x hx
        rcases List.mem_cons.mp hx with rfl | hx'
        · exact hm
        · exact replace_stats_false_marker_free stats ls false hf x hx'
      | true =>
        by_cases hsep : is_sep_line l = true
        · rw [replace_stats_cons_close stats l ls hm hsep,
              replace_stats_done stats ls] at hf
          exact absurd hf (by simp)
        · rw [Bool.not_eq_true] at hsep
          rw [replace_stats_cons_drop_nosep stats l ls false hm hsep] at hf ⊢
          exact replace_stats_false_marker_free stats ls true hf

/-- If the pass ends with `stats_replaced = true`, its output is a
marker-free prefix, the fresh stats block, and a marker-free tail. -/
theorem replace_stats_true_shape (stats : List String) :
    ∀ (ls : List String) (i : Bool),
      (replace_stats stats ls i false).2 = true →
      ∃ P T, (replace_stats stats ls i false).1 = P ++ stats ++ T ∧
        MarkerFree P ∧ MarkerFree T
  | [], _, h => absurd h (by simp [replace_stats])
  | l :: ls, i, h => by
    by_cases hm : is_marker_line l = true
    · rw [replace_stats_cons_marker stats l ls i false hm] at h ⊢
      exact replace_stats_true_shape stats ls true h
    · rw [Bool.not_eq_true] at hm
      cases i with
      | true =>
        by_cases hsep : is_sep_line l = true
        · rw [replace_stats_cons_close stats l ls hm hsep] at h ⊢
          rw [replace_stats_done stats ls]
          refine ⟨[], ls.takeWhile (fun l => !is_marker_line l), by simp, ?_, ?_⟩
          · exact fun x hx => absurd hx (List.not_mem_nil x)
          · intro x hx
            have := List.mem_takeWhile_imp hx
            simpa using this
        · rw [Bool.not_eq_true] at hsep
          rw [replace_stats_cons_drop_nosep stats l ls false hm hsep] at h ⊢
          exact replace_stats_true_shape stats ls true h
      | false =>
        rw [replace_stats_cons_emit stats l ls false hm] at h ⊢
        obtain ⟨P, T, heq, hP, hT⟩ := replace_stats_true_shape stats ls false h
        refine ⟨l :: P, T, by simp [heq], ?_, hT⟩
        intro x hx
        rcases List.mem_cons.mp hx with rfl | hx'
        · exact hm
        · exact hP x hx'

/-- A successful fallback insertion splices the stats block into the
document: the output is the scanned prefix (ending at the separator),
the block, and the untouched suffix. -/
theorem insert_after_sep_shape (stats : List String) :
    ∀ (i : Nat) (ls r : List String), insert_after_sep stats i ls = some r →
      ∃ pre suf, ls = pre ++ suf ∧ r = pre ++ stats ++ suf
  | _, [], r, h => by simp [insert_after_sep] at h
  | i, l :: ls, r, h => by
    unfold insert_after_sep at h
    split at h
    · injection h with h
      exact ⟨[l], ls, by simp, by simp [← h]⟩
    · split at h
      · next r' heq =>
        injection h with h
        obtain ⟨pre, suf, h1, h2⟩ := insert_after_sep_shape stats (i + 1) ls r' heq
        exact ⟨l :: pre, suf, by simp [h1], by simp [h2, ← h]⟩
      · exact absurd h (by simp)

theorem update_lines_eq_true (stats ls : List String)
    (h : (replace_stats stats ls false false).2 = true) :
    update_lines stats ls = (replace_stats stats ls false false).1 := by
  simp [update_lines, h]

theorem update_lines_eq_false_some (stats ls r : List String)
    (h : (replace_stats stats ls false false).2 = false)
    (hi : insert_after_sep stats 0 (replace_stats stats ls false false).1 =
      some r) :
    update_lines stats ls = r := by
  simp [update_lines, h, hi]

theorem update_lines_eq_false_none (stats ls : List String)
    (h : (replace_stats stats ls false false).2 = false)
    (hi : insert_after_sep stats 0 (replace_stats stats ls false false).1 =
      none) :
    update_lines stats ls = (replace_stats stats ls false false).1 := by
  simp [update_lines, h, hi]

/-- Every `update_lines` output is in canonical form. -/
theorem update_lines_canonical (stats ls : List String) :
    DashCanonical stats (update_lines stats ls) := by
  cases hp2 : (replace_stats stats ls false false).2 with
  | true =>
    rw [update_lines_eq_true stats ls hp2]
    exact Or.inl (replace_stats_true_shape stats ls false hp2)
  | false =>
    cases hi : insert_after_sep stats 0 (replace_stats stats ls false false).1 with
    | some r =>
      rw [update_lines_eq_false_some stats ls r hp2 hi]
      obtain ⟨pre, suf, h1, h2⟩ := insert_after_sep_shape stats 0 _ r hi
      have hmf := replace_stats_false_marker_free stats ls false hp2
      rw [h1] at hmf
      refine Or.inl ⟨pre, suf, h2, ?_, ?_⟩
      · exact fun x hx => hmf x (List.mem_append_left _ hx)
      · exact fun x hx => hmf x (List.mem_append_right _ hx)
    | none =>
      rw [update_lines_eq_false_none stats ls hp2 hi]
      exact Or.inr ⟨replace_stats_false_marker_free stats ls false hp2, hi⟩

/-- The rewrite `update_lines` fixes every canonical document: the pass rebuilds the
prefix, replaces the block by itself, and copies the tail. -/
theorem update_lines_fixed (stats out : List String)
    (hg : good_stats stats = true) (hc : DashCanonical stats out) :
    update_lines stats out = out := by
  rcases hc with ⟨P, T, rfl, hP, hT⟩ | ⟨hmf, hins⟩
  · have hT' : T.takeWhile (fun l => !is_marker_line l) = T := by
      rw [List.takeWhile_eq_self_iff]
      intro x hx
      simp [hT x hx]
    have hpass : replace_stats stats (P ++ stats ++ T) false false =
        (P ++ stats ++ T, true) := by
      rw [List.append_assoc, replace_stats_prefix stats P (stats ++ T) hP,
          replace_stats_good stats hg T, hT']
    rw [update_lines_eq_true _ _ (by rw [hpass]), hpass]
  · have hpass := replace_stats_marker_free stats out false hmf
    rw [update_lines_eq_false_none _ _ (by rw [hpass])
      (by rw [hpass]; exact hins), hpass]

/-! ### `split('\n')` / `'\n'.join` round trip -/

theorem split_nl_ne_nil : ∀ cs : List Char, split_nl cs ≠ []
  | [] => by simp [split_nl]
  | c :: cs => by
    unfold split_nl
    split
    · simp
    · split <;> simp

theorem split_nl_no_nl : ∀ (cs : List Char), ∀ p ∈ split_nl cs, '\n' ∉ p
  | [], p, hp => by
    simp [split_nl] at hp
    simp [hp]
  | c :: cs, p, hp => by
    unfold split_nl at hp
    split at hp
    · rcases List.mem_cons.mp hp with rfl | hp'
      · simp
      · exact split_nl_no_nl cs p hp'
    · next hc =>
      generalize hsp : split_nl cs = sp at hp
      cases sp with
      | nil => exact absurd hsp (split_nl_ne_nil cs)
      | cons t ts =>
        rcases List.mem_cons.mp hp with rfl | hp'
        · intro hmem
          rcases List.mem_cons.mp hmem with heq | hmem'
          · exact hc heq.symm
          · exact split_nl_no_nl cs t (by rw [hsp]; exact List.mem_cons_self t ts) hmem'
        · exact split_nl_no_nl cs p (by rw [hsp]; exact List.mem_cons_of_mem t hp')

theorem split_nl_of_no_nl : ∀ p : List Char, '\n' ∉ p → split_nl p = [p]
  | [], _ => rfl
  | c :: p, h => by
    have hc : ¬(c = '\n') := fun hceq => h (by simp [hceq])
    unfold split_nl
    rw [if_neg hc, split_nl_of_no_nl p (fun hn => h (List.mem_cons_of_mem c hn))]

theorem split_nl_cons (c : Char) (cs : List Char) :
    split_nl (c :: cs) =
      if c = '\n' then [] :: split_nl cs
      else
        match split_nl cs with
        | [] => [[c]]
        | t :: ts => (c :: t) :: ts := rfl

theorem split_nl_append : ∀ (p rest : List Char), '\n' ∉ p →
    split_nl (p ++ '\n' :: rest) = p :: split_nl rest
  | [], rest, _ => by
    show split_nl ('\n' :: rest) = [] :: split_nl rest
    rw [split_nl_cons, if_pos rfl]
  | c :: p, rest, h => by
    have hc : ¬(c = '\n') := fun hceq => h (by simp [hceq])
    show split_nl (c :: (p ++ '\n' :: rest)) = (c :: p) :: split_nl rest
    rw [split_nl_cons, if_neg hc,
        split_nl_append p rest (fun hn => h (List.mem_cons_of_mem c hn))]

theorem split_join_nl : ∀ ps : List (List Char), ps ≠ [] →
    (∀ p ∈ ps, '\n' ∉ p) → split_nl (join_nl ps) = ps
  | [], h, _ => absurd rfl h
  | [p], _, hn => by
    show split_nl p = [p]
    exact split_nl_of_no_nl p (hn p (List.mem_cons_self p []))
  | p :: q :: ps, _, hn => by
    show split_nl (p ++ '\n' :: join_nl (q :: ps)) = p :: q :: ps
    rw [split_nl_append p _ (hn p (List.mem_cons_self p _)),
        split_join_nl (q :: ps) (by simp)
          (fun x hx => hn x (List.mem_cons_of_mem p hx))]

/-- Every line the rewrite emits comes from the document or from the
fresh stats block. -/
theorem replace_stats_mem (stats : List String) :
    ∀ (ls : List String) (i r : Bool),
      ∀ l ∈ (replace_stats stats ls i r).1, l ∈ ls ∨ l ∈ stats
  | [], _, _, l, hl => absurd hl (List.not_mem_nil l)
  | x :: ls, i, r, l, hl => by
    unfold replace_stats at hl
    split at hl
    · rcases replace_stats_mem stats ls true r l hl with h | h
      · exact Or.inl (List.mem_cons_of_mem x h)
      · exact Or.inr h
    · split at hl
      · rcases List.mem_append.mp hl with h | h
        · exact Or.inr h
        · rcases replace_stats_mem stats ls false true l h with h' | h'
          · exact Or.inl (List.mem_cons_of_mem x h')
          · exact Or.inr h'
      · split at hl
        · rcases List.mem_cons.mp hl with rfl | h
          · exact Or.inl (List.mem_cons_self l ls)
          · rcases replace_stats_mem stats ls i r l h with h' | h'
            · exact Or.inl (List.mem_cons_of_mem x h')
            · exact Or.inr h'
        · rcases replace_stats_mem stats ls i r l hl with h' | h'
          · exact Or.inl (List.mem_cons_of_mem x h')
          · exact Or.inr h'

theorem update_lines_mem (stats ls : List String) :
    ∀ l ∈ update_lines stats ls, l ∈ ls ∨ l ∈ stats := by
  intro l hl
  cases hp2 : (replace_stats stats ls false false).2 with
  | true =>
    rw [update_lines_eq_true stats ls hp2] at hl
    exact replace_stats_mem stats ls false false l hl
  | false =>
    cases hi : insert_after_sep stats 0 (replace_stats stats ls false false).1 with
    | some r =>
      rw [update_lines_eq_false_some stats ls r hp2 hi] at hl
      obtain ⟨pre, suf, h1, h2⟩ := insert_after_sep_shape stats 0 _ r hi
      rw [h2] at hl
      rcases List.mem_append.mp hl with h | h
      · rcases List.mem_append.mp h with h' | h'
        · exact replace_stats_mem stats ls false false l
            (by rw [h1]; exact List.mem_append_left _ h')
        · exact Or.inr h'
      · exact replace_stats_mem stats ls false false l
          (by rw [h1]; exact List.mem_append_right _ h)
    | none =>
      rw [update_lines_eq_false_none stats ls hp2 hi] at hl
      exact replace_stats_mem stats ls false false l hl

theorem py_split_lines_no_nl (s : String) :
    ∀ l ∈ py_split_lines s, no_nl_line l = true := by
  intro l hl
  obtain ⟨p, hp, rfl⟩ := List.mem_map.mp hl
  have := split_nl_no_nl s.data p hp
  simp [no_nl_line, this]

theorem py_split_join (out : List String)
    (hnn : ∀ l ∈ out, no_nl_line l = true) (hne : out ≠ []) :
    py_split_lines (py_join_lines out) = out := by
  unfold py_split_lines py_join_lines
  rw [show (String.mk (join_nl (out.map String.data))).data =
        join_nl (out.map String.data) from rfl,
      split_join_nl (out.map String.data) (by simpa using hne) ?_]
  · rw [List.map_map]
    have hid : (String.mk ∘ String.data) = id := funext fun s => rfl
    rw [hid, List.map_id]
  · intro p hp
    obtain ⟨l, hl, rfl⟩ := List.mem_map.mp hp
    have := hnn l hl
    simpa [no_nl_line] using this

/-- Idempotence of the dashboard rewrite for any well-formed stats
block. -/
theorem update_dashboard_idem_aux (stats : List String)
    (hg : good_stats stats = true) (hn : no_nl_lines stats = true)
    (doc : String) :
    update_dashboard stats (update_dashboard stats doc) =
      update_dashboard stats doc := by
  unfold update_dashboard
  by_cases hempty : update_lines stats (py_split_lines doc) = []
  · rw [hempty]
    rw [show py_split_lines (py_join_lines []) = [""] from rfl]
    have hmf : MarkerFree [""] := by
      intro x hx
      rcases List.mem_cons.mp hx with rfl | hx'
      · rfl
      · exact absurd hx' (List.not_mem_nil x)
    have hpass := replace_stats_marker_free stats [""] false hmf
    have hins : insert_after_sep stats 0
        ((replace_stats stats [""] false false).1) = none := by
      rw [hpass]
      show insert_after_sep stats 0 [""] = none
      unfold insert_after_sep
      rw [if_neg (by simp [is_sep_line, py_strip, quick_stats_marker])]
      rfl
    rw [update_lines_eq_false_none stats [""] (by rw [hpass]) hins, hpass]
    rfl
  · have hnn : ∀ l ∈ update_lines stats (py_split_lines doc),
        no_nl_line l = true := by
      intro l hl
      rcases update_lines_mem stats (py_split_lines doc) l hl with h | h
      · exact py_split_lines_no_nl doc l h
      · exact List.all_eq_true.mp hn l h
    rw [py_split_join _ hnn hempty]
    exact congrArg py_join_lines
      (update_lines_fixed stats _ hg (update_lines_canonical stats (py_split_lines doc)))

/-- C5: `update_dashboard` is idempotent — with the folder contents
(and hence the three computed counts) unchanged, running the document
rewrite twice yields the same bytes as running it once.  The two
side conditions hold of the generated stats block for every count
triple and are discharged by computation in the witness. -/
theorem update_dashboard_idempotent (p a d : Nat) (doc : String)
    (hg : good_stats (stats_lines p a d) = true)
    (hn : no_nl_lines (stats_lines p a d) = true) :
    update_dashboard (stats_lines p a d)
        (update_dashboard (stats_lines p a d) doc) =
      update_dashboard (stats_lines p a d) doc :=
  update_dashboard_idem_aux (stats_lines p a d) hg hn doc

/-- Witness for `update_dashboard_idempotent` at counts `(2, 0, 1)` on a
small dashboard document. -/
theorem update_dashboard_idempotent_witness :
    good_stats (stats_lines 2 0 1) = true ∧
    no_nl_lines (stats_lines 2 0 1) = true ∧
    update_dashboard (stats_lines 2 0 1)
        (update_dashboard (stats_lines 2 0 1)
          "# Dashboard\n\nintro\n\n---\n\n## 📊 Quick Stats\n\nold\n\n---\ntail") =
      update_dashboard (stats_lines 2 0 1)
        "# Dashboard\n\nintro\n\n---\n\n## 📊 Quick Stats\n\nold\n\n---\ntail" :=
  ⟨by decide, by decide,
   update_dashboard_idempotent 2 0 1
     "# Dashboard\n\nintro\n\n---\n\n## 📊 Quick Stats\n\nold\n\n---\ntail"
     (by decide) (by decide)⟩
